import Mathlib

/- Shallow embedding of the Auroran health dashboard's performance-management
   analytics core: `training_load.py`, `formula_learning.py`, and the dashboard
   aggregator / workout-index parts of `app.py`.

   Modelling conventions:
   * Calendar dates are modelled by their ordinal day number (`ℕ`).  The ISO
     date strings "YYYY-MM-DD" used by the source are order-isomorphic to day
     ordinals via `strptime`/`isoformat`, and the source only compares them,
     sorts them, and steps them by one day (`timedelta(days=1)`).
   * Python floats are modelled as exact rationals where the code is purely
     algebraic (gap filling, grid generation, thresholds), and as real numbers
     wherever the code calls `math.exp`.
   * `round(x, n)` is modelled as nearest-multiple-of-`10⁻ⁿ` rounding
     (`round1`, `round3`).  Python rounds ties half-to-even; no fact proved
     below sits on a tie, so the tie-breaking direction is immaterial.
-/

namespace Auroran

/-- A daily-load sample `{"date": ..., "load": ...}` (data model `DailyLoad`). -/
structure DailyLoad where
  date : ℕ
  load : ℚ
deriving DecidableEq, Repr

/-- `loads_map = {d["date"]: float(d.get("load", 0.0)) for d in daily_loads}`
(`training_load.py` line 136 and the inline copies in `app.py`): a Python dict
comprehension, so on duplicate dates the last entry wins. -/
def loadsMap (daily_loads : List DailyLoad) (d : ℕ) : Option ℚ :=
  (daily_loads.reverse.find? (fun e => e.date == d)).map (fun e => e.load)

/-- `dates[0]` after `dates = sorted(loads_map.keys())`: the minimum date. -/
def minDate (daily_loads : List DailyLoad) : ℕ :=
  match daily_loads with
  | [] => 0
  | x :: xs => xs.foldl (fun m e => min m e.date) x.date

/-- `dates[-1]` after `dates = sorted(loads_map.keys())`: the maximum date. -/
def maxDate (daily_loads : List DailyLoad) : ℕ :=
  match daily_loads with
  | [] => 0
  | x :: xs => xs.foldl (fun m e => max m e.date) x.date

/-- `_build_full_series` (`training_load.py` lines 129-146): walk `cur` from the
minimum to the maximum input date inclusive, emitting `loads_map.get(ds, 0.0)`
for each day. -/
def _build_full_series (daily_loads : List DailyLoad) : List DailyLoad :=
  match daily_loads with
  | [] => []
  | _ :: _ =>
    (List.range (maxDate daily_loads - minDate daily_loads + 1)).map
      (fun i => ⟨minDate daily_loads + i,
                 (loadsMap daily_loads (minDate daily_loads + i)).getD 0⟩)

/-- The inline series builder of the PMC endpoints (`app.py` lines 1869-1874 in
`pmc` and lines 1552-1556 in `_dash_fetch_pmc`): walk `cur` from `start_date`
to `end_date` inclusive, emitting `loads_map.get(ds, 0.0)`. -/
def buildWindowSeries (daily_loads : List DailyLoad) (start_date end_date : ℕ) :
    List DailyLoad :=
  (List.range (end_date + 1 - start_date)).map
    (fun i => ⟨start_date + i, (loadsMap daily_loads (start_date + i)).getD 0⟩)

/-- The window used by both PMC endpoints:
`start_date = end_date - timedelta(days=query_days - 1)` (`app.py` lines
1867 and 1551). -/
def pmcEndpointSeries (daily_loads : List DailyLoad) (end_date query_days : ℕ) :
    List DailyLoad :=
  buildWindowSeries daily_loads (end_date - (query_days - 1)) end_date

/-- `round(x, 1)`, applied by `calculate_pmc_series` when emitting points. -/
noncomputable def round1 (x : ℝ) : ℝ := ((round (x * 10) : ℤ) : ℝ) / 10

/-- EWMA decay `k = 1 - exp(-1/τ)` (`training_load.py` lines 164-165). -/
noncomputable def k_of (days : ℝ) : ℝ := 1 - Real.exp (-1 / days)

/-- One output row of `calculate_pmc_series` (data model `PMCPoint`). -/
structure PMCPoint where
  date : ℕ
  load : ℝ
  ctl : ℝ
  atl : ℝ
  tsb : ℝ

/-- The loop body of `calculate_pmc_series` (`training_load.py` lines 170-181):
`ctl = ctl*(1-k_ctl) + load*k_ctl`, `atl = atl*(1-k_atl) + load*k_atl`,
`tsb = ctl - atl`, with each emitted value rounded to one decimal. -/
noncomputable def pmcPoints (k_ctl k_atl scale : ℝ) :
    ℝ × ℝ → List DailyLoad → List PMCPoint
  | _, [] => []
  | st, day :: rest =>
    ⟨day.date, round1 ((day.load : ℝ) * scale),
     round1 (st.1 * (1 - k_ctl) + (day.load : ℝ) * scale * k_ctl),
     round1 (st.2 * (1 - k_atl) + (day.load : ℝ) * scale * k_atl),
     round1 ((st.1 * (1 - k_ctl) + (day.load : ℝ) * scale * k_ctl) -
             (st.2 * (1 - k_atl) + (day.load : ℝ) * scale * k_atl))⟩ ::
      pmcPoints k_ctl k_atl scale
        (st.1 * (1 - k_ctl) + (day.load : ℝ) * scale * k_ctl,
         st.2 * (1 - k_atl) + (day.load : ℝ) * scale * k_atl) rest

/-- `calculate_pmc_series` (`training_load.py` lines 149-182).  The module
constant `LOAD_SCALE_FACTOR` is passed explicitly as `scale` (its shipped
value is 1.4, merged from `formula_learning.DEFAULT_PARAMS`; the `ImportError`
fallback is 1.27).  The recurrence is seeded at `ctl = atl = 0.0`. -/
noncomputable def calculate_pmc_series (full_series : List DailyLoad)
    (ctl_days atl_days scale : ℝ) : List PMCPoint :=
  pmcPoints (k_of ctl_days) (k_of atl_days) scale (0, 0) full_series

/-- The EWMA state after `n` days of a constant (already scaled) daily `load`,
seeded at 0 exactly as the `calculate_pmc_series` loop is. -/
noncomputable def ewma (k load : ℝ) : ℕ → ℝ
  | 0 => 0
  | n + 1 => ewma k load n * (1 - k) + load * k

/-- A gap-free series of `n` consecutive days of constant raw load `L`. -/
def constSeries (d0 n : ℕ) (L : ℚ) : List DailyLoad :=
  (List.range n).map (fun i => ⟨d0 + i, L⟩)

/-- `get_status_description` (`training_load.py` lines 224-232). -/
def get_status_description (tsb : ℚ) : String :=
  if tsb > 10 then "Recovering / Resting - short-term freshness before races"
  else if tsb ≥ -10 then "Productive Training - adding load in a manageable way"
  else if tsb ≥ -30 then "Maintaining Fitness - load roughly in balance"
  else "Going Too Hard - risk of illness/injury, take a step back"

/-- The status banding inside `calculate_ctl_atl_tsb`
(`training_load.py` lines 206-214): same thresholds, shorter labels. -/
def pmcStatusLabel (tsb : ℚ) : String :=
  if tsb > 10 then "Recovering / Resting"
  else if tsb ≥ -10 then "Productive Training"
  else if tsb ≥ -30 then "Maintaining Fitness"
  else "Going Too Hard"

/-- `DEFAULT_PARAMS` (`formula_learning.py` lines 24-28). -/
structure FLParams where
  ctl_days : ℚ
  atl_days : ℚ
  load_scale_factor : ℚ
deriving DecidableEq, Repr

/-- `DEFAULT_PARAMS = {"ctl_days": 60, "atl_days": 7, "load_scale_factor": 1.4}`. -/
def DEFAULT_PARAMS : FLParams := ⟨60, 7, 14/10⟩

/-- A manual reference point `{'date', 'ctl', 'atl'}`; any field may be null. -/
structure RefPoint where
  date : Option ℕ
  ctl : Option ℚ
  atl : Option ℚ
deriving DecidableEq, Repr

/-- `daily_loads.get(date_str, 0.0)` over a date→load dict (last entry wins). -/
def lookupLoad (daily_loads : List (ℕ × ℚ)) (d : ℕ) : ℚ :=
  ((daily_loads.reverse.find? (fun e => e.1 == d)).map (fun e => e.2)).getD 0

/-- `all_dates[0]` after `all_dates = sorted(daily_loads.keys())`. -/
def minKey (daily_loads : List (ℕ × ℚ)) : ℕ :=
  match daily_loads with
  | [] => 0
  | x :: xs => xs.foldl (fun m e => min m e.1) x.1

/-- `calculate_pmc_with_params` (`formula_learning.py` lines 53-108): run the
EWMA recurrence `state += k*(load - state)` from the earliest load date up to
`target_date`, returning `(ctl, atl, tsb)`; `(0,0,0)` for an empty dict or a
target before the first date. -/
noncomputable def calculate_pmc_with_params (daily_loads : List (ℕ × ℚ))
    (ctl_days atl_days load_scale_factor : ℚ) (target_date : ℕ) : ℝ × ℝ × ℝ :=
  match daily_loads with
  | [] => (0, 0, 0)
  | _ :: _ =>
    let ctl_k : ℝ := 1 - Real.exp (-1 / (ctl_days : ℝ))
    let atl_k : ℝ := 1 - Real.exp (-1 / (atl_days : ℝ))
    let start := minKey daily_loads
    if target_date < start then (0, 0, 0)
    else
      let st := (List.range (target_date - start + 1)).foldl
        (fun (st : ℝ × ℝ) i =>
          let load : ℝ := (lookupLoad daily_loads (start + i) : ℝ) *
            (load_scale_factor : ℝ)
          (st.1 + ctl_k * (load - st.1), st.2 + atl_k * (load - st.2))) (0, 0)
      (st.1, st.2, st.1 - st.2)

/-- One iteration of the `calculate_error` loop (`formula_learning.py` lines
131-146): refs with no date are skipped; a squared error term is added for
each non-null `ctl` / `atl` field. -/
noncomputable def refError (daily_loads : List (ℕ × ℚ)) (cd ad s : ℚ)
    (total : ℝ) (ref : RefPoint) : ℝ :=
  match ref.date with
  | none => total
  | some date =>
    let c := calculate_pmc_with_params daily_loads cd ad s date
    let t1 := match ref.ctl with
      | some r => total + (c.1 - (r : ℝ)) ^ 2
      | none => total
    match ref.atl with
    | some r => t1 + (c.2.1 - (r : ℝ)) ^ 2
    | none => t1

/-- `calculate_error` (`formula_learning.py` lines 111-148). -/
noncomputable def calculate_error (daily_loads : List (ℕ × ℚ))
    (reference_points : List RefPoint) (cd ad s : ℚ) : ℝ :=
  reference_points.foldl (refError daily_loads cd ad s) 0

/-- `round(scale, 3)` applied when a grid candidate is accepted. -/
def round3 (x : ℚ) : ℚ := ((round (x * 1000) : ℤ) : ℚ) / 1000

/-- `ctl_range = [best + d for d in range(-5, 6)]` filtered to `30 ≤ c ≤ 50`
(`formula_learning.py` lines 185 and 190). -/
def ctlRange (p : FLParams) : List ℚ :=
  ((List.range 11).map (fun i : ℕ => p.ctl_days + ((i : ℚ) - 5))).filter
    (fun c => 30 ≤ c ∧ c ≤ 50)

/-- `atl_range = [best + d for d in range(-2, 3)]` filtered to `4 ≤ a ≤ 10`. -/
def atlRange (p : FLParams) : List ℚ :=
  ((List.range 5).map (fun i : ℕ => p.atl_days + ((i : ℚ) - 2))).filter
    (fun a => 4 ≤ a ∧ a ≤ 10)

/-- `scale_range = [best + s*0.05 for s in range(-4, 5)]` filtered to
`0.8 ≤ s ≤ 1.8`. -/
def scaleRange (p : FLParams) : List ℚ :=
  ((List.range 9).map (fun i : ℕ => p.load_scale_factor + ((i : ℚ) - 4) * (5/100))).filter
    (fun s => 4/5 ≤ s ∧ s ≤ 9/5)

/-- The nested `for ctl_days / for atl_days / for scale` loop order. -/
def gridCandidates (p : FLParams) : List (ℚ × ℚ × ℚ) :=
  (ctlRange p).flatMap (fun c =>
    (atlRange p).flatMap (fun a =>
      (scaleRange p).map (fun s => (c, a, s))))

/-- The dict built when a candidate improves on `best_error`
(`formula_learning.py` lines 204-208): scale rounded to three decimals. -/
def mkBestParams (cand : ℚ × ℚ × ℚ) : FLParams :=
  ⟨cand.1, cand.2.1, round3 cand.2.2⟩

open scoped Classical in
/-- The body of the grid-search loop: keep the candidate iff its error is
strictly below the best so far. -/
noncomputable def optStep (daily_loads : List (ℕ × ℚ))
    (reference_points : List RefPoint) (st : ℝ × FLParams)
    (cand : ℚ × ℚ × ℚ) : ℝ × FLParams :=
  if calculate_error daily_loads reference_points cand.1 cand.2.1 cand.2.2 < st.1 then
    (calculate_error daily_loads reference_points cand.1 cand.2.1 cand.2.2,
     mkBestParams cand)
  else st

/-- `optimize_parameters` (`formula_learning.py` lines 151-210): fewer than two
reference points (of any shape) is a no-op; otherwise grid search around the
current parameters, starting from `best_error` at the current parameters. -/
noncomputable def optimize_parameters (daily_loads : List (ℕ × ℚ))
    (reference_points : List RefPoint) (current_params : Option FLParams) :
    FLParams :=
  if reference_points.length < 2 then current_params.getD DEFAULT_PARAMS
  else
    let cp := current_params.getD DEFAULT_PARAMS
    let best_error := calculate_error daily_loads reference_points
      cp.ctl_days cp.atl_days cp.load_scale_factor
    ((gridCandidates cp).foldl (optStep daily_loads reference_points)
      (best_error, cp)).2

/-- `run_learning_cycle` (`formula_learning.py` lines 250-278), with the
persisted-file round trip made explicit: `stored` is what `load_params()`
returned, `reference_points` is what the Influx fetch returned, and the
second component is `some (saved_params, reference_count)` exactly when
`save_params` runs (`last_updated`, a wall-clock stamp, is not modelled). -/
noncomputable def run_learning_cycle (stored : FLParams)
    (reference_points : List RefPoint) (daily_loads : List (ℕ × ℚ)) :
    FLParams × Option (FLParams × ℕ) :=
  if 2 ≤ reference_points.length then
    let new_params := optimize_parameters daily_loads reference_points (some stored)
    if 1 ≤ |new_params.ctl_days - stored.ctl_days| ∨
       1 ≤ |new_params.atl_days - stored.atl_days| ∨
       1/50 ≤ |new_params.load_scale_factor - stored.load_scale_factor| then
      (new_params, some (new_params, reference_points.length))
    else (stored, none)
  else (stored, none)

/-- A concrete two-sample input for exercising the gap filler. -/
def exDL : List DailyLoad := [⟨3, 5⟩, ⟨1, 2⟩]

/-- Concrete daily loads used by the calibration counterexamples. -/
def exLoads : List (ℕ × ℚ) := [(0, 100)]

/-- Two reference points, only one of which carries a non-null value. -/
def exRefs : List RefPoint := [⟨some 0, some 1000, none⟩, ⟨some 5, none, none⟩]

/-- A starting parameter set inside all the grid bounds. -/
def exParams : FLParams := ⟨42, 7, 1⟩

/-- The seven sub-query keys of `api_dashboard` (`app.py` lines 1790-1798). -/
inductive DashKey
  | health | history | recommendation | pmc | workouts | calories | weight
deriving DecidableEq, Repr

/-- The four sub-query keys of `api_dashboard_quick` (`app.py` lines 1727-1732). -/
inductive QuickKey
  | health | recommendation | calories | weight
deriving DecidableEq, Repr

/-- What the combined dashboard map holds under one key. -/
inductive DashEntry (V : Type) where
  | value (v : V)
  | errorMarker (msg : String)
  | emptyList
deriving DecidableEq, Repr

/-- The per-key collection logic of `api_dashboard` (`app.py` lines 1799-1805):
`out[key] = fut.result()`, and on an exception
`out[key] = {"error": str(e)} if key != "workouts" else []`.  `outcome k` is
the result of sub-query `k`: `Except.ok` if it returned, `Except.error` with
`str(e)` if it raised. -/
def api_dashboard {V : Type} (outcome : DashKey → Except String V)
    (k : DashKey) : DashEntry V :=
  match outcome k with
  | .ok v => .value v
  | .error e => if k = .workouts then .emptyList else .errorMarker e

/-- The per-key collection logic of `api_dashboard_quick` (`app.py` lines
1734-1740): every failed key gets `{"error": str(e)}`. -/
def api_dashboard_quick {V : Type} (outcome : QuickKey → Except String V)
    (k : QuickKey) : DashEntry V :=
  match outcome k with
  | .ok v => .value v
  | .error e => .errorMarker e

/-- A run in which exactly the `workouts` sub-query raises. -/
def exOutcome : DashKey → Except String String :=
  fun k => if k = .workouts then .error "boom" else .ok "ok"

/-- `WORKOUT_INDEX_TTL_SECONDS = 600` (`app.py` line 124). -/
def WORKOUT_INDEX_TTL_SECONDS : ℕ := 600

/-- The `_workout_index` dict (`app.py` lines 126-131) plus one piece of model
bookkeeping: `inflight` counts the background `_load_workout_index` threads
currently running (not a field of the Python dict; it instruments the claim
"at most one population task is in flight"). -/
structure WorkoutIndexState where
  data : Option (List ℕ)
  loaded_at : Option ℕ
  loading : Bool
  loading_started_at : Option ℕ
  inflight : ℕ
deriving DecidableEq, Repr

/-- The initial `_workout_index` value (`app.py` lines 126-131; also what
`clear caches` resets it to at line 435). -/
def initIndexState : WorkoutIndexState := ⟨none, none, false, none, 0⟩

/-- Python truthiness of `_workout_index["data"]`: an empty list is falsy. -/
def dataTruthy (s : WorkoutIndexState) : Bool :=
  match s.data with
  | some l => !l.isEmpty
  | none => false

/-- `_ensure_workout_index_loaded` (`app.py` lines 811-829), which runs as one
atomic step because its whole body holds `_workout_index_lock`.  Returns the
new state, whether a background population thread was spawned, and the data
handed back to the caller. -/
def _ensure_workout_index_loaded (now : ℕ) (s : WorkoutIndexState) :
    WorkoutIndexState × Bool × Option (List ℕ) :=
  if dataTruthy s ∧ s.loaded_at.isSome ∧
      now - s.loaded_at.getD 0 < WORKOUT_INDEX_TTL_SECONDS then
    (s, false, s.data)
  else if s.loading = false then
    ({ s with loading := true, loading_started_at := some now,
              inflight := s.inflight + 1 }, true, s.data)
  else
    (s, false, s.data)

/-- The observable atomic events on the index: an `_ensure_workout_index_loaded`
call, and the final lock-protected write of a `_load_workout_index` thread —
either a failure exit (`app.py` lines 762-764 and 793-795, which only reset
`loading`) or the success exit (lines 804-808).  A complete event at
`inflight = 0` has no thread to come from and is a no-op. -/
inductive IndexEvent where
  | ensure (now : ℕ)
  | completeFail
  | completeSuccess (data : List ℕ) (now : ℕ)
deriving DecidableEq, Repr

/-- The atomic transition for one event (every branch of the Python code that
touches `_workout_index` does so under `_workout_index_lock`). -/
def indexStep (s : WorkoutIndexState) : IndexEvent → WorkoutIndexState
  | .ensure now => (_ensure_workout_index_loaded now s).1
  | .completeFail =>
    if s.inflight = 0 then s
    else { s with loading := false, inflight := s.inflight - 1 }
  | .completeSuccess d now =>
    if s.inflight = 0 then s
    else { s with data := some d, loaded_at := some now, loading := false,
                  loading_started_at := none, inflight := s.inflight - 1 }

/-- The state after a sequence of events starting from the module-load state. -/
def runIndex (events : List IndexEvent) : WorkoutIndexState :=
  events.foldl indexStep initIndexState

/- ------------------------------------------------------------------ -/
/- Helper lemmas                                                      -/
/- ------------------------------------------------------------------ -/

lemma foldl_min_le_init (xs : List DailyLoad) (a : ℕ) :
    xs.foldl (fun m e => min m e.date) a ≤ a := by
  induction xs generalizing a with
  | nil => simp
  | cons x xs ih => exact le_trans (ih (min a x.date)) (min_le_left _ _)

lemma foldl_min_le_mem (xs : List DailyLoad) (a : ℕ) :
    ∀ e ∈ xs, xs.foldl (fun m e => min m e.date) a ≤ e.date := by
  induction xs generalizing a with
  | nil => simp
  | cons x xs ih =>
    intro e he
    rcases List.mem_cons.mp he with h | h
    · subst h
      exact le_trans (foldl_min_le_init xs _) (min_le_right _ _)
    · exact ih (min a x.date) e h

lemma init_le_foldl_max (xs : List DailyLoad) (a : ℕ) :
    a ≤ xs.foldl (fun m e => max m e.date) a := by
  induction xs generalizing a with
  | nil => simp
  | cons x xs ih => exact le_trans (le_max_left _ _) (ih (max a x.date))

lemma mem_le_foldl_max (xs : List DailyLoad) (a : ℕ) :
    ∀ e ∈ xs, e.date ≤ xs.foldl (fun m e => max m e.date) a := by
  induction xs generalizing a with
  | nil => simp
  | cons x xs ih =>
    intro e he
    rcases List.mem_cons.mp he with h | h
    · subst h
      exact le_trans (le_max_right _ _) (init_le_foldl_max xs _)
    · exact ih (max a x.date) e h

lemma minDate_le {dl : List DailyLoad} {e : DailyLoad} (he : e ∈ dl) :
    minDate dl ≤ e.date := by
  cases dl with
  | nil => cases he
  | cons x xs =>
    rcases List.mem_cons.mp he with h | h
    · subst h
      exact foldl_min_le_init xs _
    · exact foldl_min_le_mem xs x.date e h

lemma le_maxDate {dl : List DailyLoad} {e : DailyLoad} (he : e ∈ dl) :
    e.date ≤ maxDate dl := by
  cases dl with
  | nil => cases he
  | cons x xs =>
    rcases List.mem_cons.mp he with h | h
    · subst h
      exact init_le_foldl_max xs _
    · exact mem_le_foldl_max xs x.date e h

lemma loadsMap_eq_none {dl : List DailyLoad} {d : ℕ}
    (h : ∀ x ∈ dl, x.date ≠ d) : loadsMap dl d = none := by
  unfold loadsMap
  have hf : dl.reverse.find? (fun e => e.date == d) = none := by
    rw [List.find?_eq_none]
    intro x hx
    simpa using h x (List.mem_reverse.mp hx)
  rw [hf]
  rfl

lemma rangeSeries_get (dl : List DailyLoad) (base n i : ℕ)
    (hi : i < ((List.range n).map
      (fun i => (⟨base + i, (loadsMap dl (base + i)).getD 0⟩ : DailyLoad))).length) :
    (((List.range n).map
      (fun i => (⟨base + i, (loadsMap dl (base + i)).getD 0⟩ : DailyLoad))).get
        ⟨i, hi⟩).date = base + i := by
  simp [List.get_eq_getElem]

lemma rangeSeries_absent (dl : List DailyLoad) (base n : ℕ) :
    ∀ p ∈ (List.range n).map
      (fun i => (⟨base + i, (loadsMap dl (base + i)).getD 0⟩ : DailyLoad)),
      (∀ x ∈ dl, x.date ≠ p.date) → p.load = 0 := by
  intro p hp habs
  rcases List.mem_map.mp hp with ⟨i, _, rfl⟩
  simp only [loadsMap_eq_none habs, Option.getD_none]

/- ------------------------------------------------------------------ -/
/- C1                                                                 -/
/- ------------------------------------------------------------------ -/

/-- C1 (counterexample): the inline PMC-endpoint loop is not equivalent to
`_build_full_series`.  For input loads on days 0 and 10 and a 6-day query
window ending on day 10, the endpoint's series covers only days 5..10: it has
no entry at all for day 0, the earliest input date, so it does not contain one
entry per calendar day from the earliest to the latest input date. -/
theorem c1_counterexample :
    minDate [⟨0, 5⟩, ⟨10, 3⟩] = 0 ∧ maxDate [⟨0, 5⟩, ⟨10, 3⟩] = 10 ∧
    (pmcEndpointSeries [⟨0, 5⟩, ⟨10, 3⟩] 10 6).length = 6 ∧
    (pmcEndpointSeries [⟨0, 5⟩, ⟨10, 3⟩] 10 6).all (fun e => e.date != 0) = true := by
  decide

/-- C1 (amended): for every non-empty input, `_build_full_series` returns
exactly one entry per calendar day from the earliest to the latest input date
inclusive, in chronological order (entry `i` is day `min + i`), with load 0 on
every day absent from the input.  The inline loops of the PMC endpoints
satisfy the same shape over their fixed query window `[start_date, end_date]`
instead: entry `i` is day `start_date + i`, absent days have load 0 — they
cover the earliest-to-latest input range only when every input date falls
inside the window. -/
theorem c1_gap_filling (dl : List DailyLoad) (h : dl ≠ []) :
    ((_build_full_series dl).length = maxDate dl - minDate dl + 1 ∧
     (∀ i (hi : i < (_build_full_series dl).length),
        ((_build_full_series dl).get ⟨i, hi⟩).date = minDate dl + i) ∧
     (∀ p ∈ _build_full_series dl,
        (∀ x ∈ dl, x.date ≠ p.date) → p.load = 0) ∧
     (∀ x ∈ dl, minDate dl ≤ x.date ∧ x.date ≤ maxDate dl)) ∧
    (∀ a b,
      (buildWindowSeries dl a b).length = b + 1 - a ∧
      (∀ i (hi : i < (buildWindowSeries dl a b).length),
         ((buildWindowSeries dl a b).get ⟨i, hi⟩).date = a + i) ∧
      (∀ p ∈ buildWindowSeries dl a b,
         (∀ x ∈ dl, x.date ≠ p.date) → p.load = 0)) := by
  constructor
  · cases dl with
    | nil => exact absurd rfl h
    | cons x xs =>
      refine ⟨by simp [_build_full_series], ?_, ?_, ?_⟩
      · intro i hi
        exact rangeSeries_get (x :: xs) (minDate (x :: xs)) _ i hi
      · exact rangeSeries_absent (x :: xs) (minDate (x :: xs)) _
      · intro y hy
        exact ⟨minDate_le hy, le_maxDate hy⟩
  · intro a b
    refine ⟨by simp [buildWindowSeries], ?_, ?_⟩
    · intro i hi
      exact rangeSeries_get dl a _ i hi
    · exact rangeSeries_absent dl a _

/-- C1 witness: the amended statement evaluated on the concrete input
`exDL = [{date 3, load 5}, {date 1, load 2}]`. -/
theorem c1_gap_filling_witness :
    exDL ≠ [] ∧
    (((_build_full_series exDL).length = maxDate exDL - minDate exDL + 1 ∧
      (∀ i (hi : i < (_build_full_series exDL).length),
         ((_build_full_series exDL).get ⟨i, hi⟩).date = minDate exDL + i) ∧
      (∀ p ∈ _build_full_series exDL,
         (∀ x ∈ exDL, x.date ≠ p.date) → p.load = 0) ∧
      (∀ x ∈ exDL, minDate exDL ≤ x.date ∧ x.date ≤ maxDate exDL)) ∧
     (∀ a b,
       (buildWindowSeries exDL a b).length = b + 1 - a ∧
       (∀ i (hi : i < (buildWindowSeries exDL a b).length),
          ((buildWindowSeries exDL a b).get ⟨i, hi⟩).date = a + i) ∧
       (∀ p ∈ buildWindowSeries exDL a b,
          (∀ x ∈ exDL, x.date ≠ p.date) → p.load = 0))) :=
  ⟨by decide, c1_gap_filling exDL (by decide)⟩

/- ------------------------------------------------------------------ -/
/- C8                                                                 -/
/- ------------------------------------------------------------------ -/

/-- C8: the status label is a pure function of tsb with band thresholds at
+10, −10 and −30.  tsb = 15 lands in the recovering/resting tier, tsb = −5 in
the productive-training tier, tsb = −50 in the going-too-hard tier; and each
band determines its label, both for `get_status_description` and for the
status banding inside `calculate_ctl_atl_tsb`. -/
theorem c8_status_label :
    get_status_description 15 =
      "Recovering / Resting - short-term freshness before races" ∧
    get_status_description (-5) =
      "Productive Training - adding load in a manageable way" ∧
    get_status_description (-50) =
      "Going Too Hard - risk of illness/injury, take a step back" ∧
    pmcStatusLabel 15 = "Recovering / Resting" ∧
    pmcStatusLabel (-5) = "Productive Training" ∧
    pmcStatusLabel (-50) = "Going Too Hard" ∧
    (∀ t : ℚ, 10 < t →
      get_status_description t =
        "Recovering / Resting - short-term freshness before races" ∧
      pmcStatusLabel t = "Recovering / Resting") ∧
    (∀ t : ℚ, -10 ≤ t → t ≤ 10 →
      get_status_description t =
        "Productive Training - adding load in a manageable way" ∧
      pmcStatusLabel t = "Productive Training") ∧
    (∀ t : ℚ, -30 ≤ t → t < -10 →
      get_status_description t = "Maintaining Fitness - load roughly in balance" ∧
      pmcStatusLabel t = "Maintaining Fitness") ∧
    (∀ t : ℚ, t < -30 →
      get_status_description t =
        "Going Too Hard - risk of illness/injury, take a step back" ∧
      pmcStatusLabel t = "Going Too Hard") := by
  refine ⟨by norm_num [get_status_description], by norm_num [get_status_description],
    by norm_num [get_status_description], by norm_num [pmcStatusLabel],
    by norm_num [pmcStatusLabel], by norm_num [pmcStatusLabel], ?_, ?_, ?_, ?_⟩
  · intro t ht
    constructor <;>
    · simp only [get_status_description, pmcStatusLabel]
      split_ifs <;> first | rfl | linarith
  · intro t ht1 ht2
    constructor <;>
    · simp only [get_status_description, pmcStatusLabel]
      split_ifs <;> first | rfl | linarith
  · intro t ht1 ht2
    constructor <;>
    · simp only [get_status_description, pmcStatusLabel]
      split_ifs <;> first | rfl | linarith
  · intro t ht
    constructor <;>
    · simp only [get_status_description, pmcStatusLabel]
      split_ifs <;> first | rfl | linarith

/-- C8 witness: the band implications evaluated at tsb = 15, −5, −50. -/
theorem c8_status_label_witness :
    (10 < (15 : ℚ) ∧
      get_status_description 15 =
        "Recovering / Resting - short-term freshness before races" ∧
      pmcStatusLabel 15 = "Recovering / Resting") ∧
    (-10 ≤ (-5 : ℚ) ∧ (-5 : ℚ) ≤ 10 ∧
      get_status_description (-5) =
        "Productive Training - adding load in a manageable way" ∧
      pmcStatusLabel (-5) = "Productive Training") ∧
    ((-50 : ℚ) < -30 ∧
      get_status_description (-50) =
        "Going Too Hard - risk of illness/injury, take a step back" ∧
      pmcStatusLabel (-50) = "Going Too Hard") :=
  ⟨⟨by norm_num, (c8_status_label.2.2.2.2.2.2.1 15 (by norm_num)).1,
      (c8_status_label.2.2.2.2.2.2.1 15 (by norm_num)).2⟩,
   ⟨by norm_num, by norm_num,
      (c8_status_label.2.2.2.2.2.2.2.1 (-5) (by norm_num) (by norm_num)).1,
      (c8_status_label.2.2.2.2.2.2.2.1 (-5) (by norm_num) (by norm_num)).2⟩,
   ⟨by norm_num, (c8_status_label.2.2.2.2.2.2.2.2.2 (-50) (by norm_num)).1,
      (c8_status_label.2.2.2.2.2.2.2.2.2 (-50) (by norm_num)).2⟩⟩

/- ------------------------------------------------------------------ -/
/- C5                                                                 -/
/- ------------------------------------------------------------------ -/

/-- C5 (counterexample): when exactly the `workouts` sub-query of
`api_dashboard` raises, the combined map carries an empty list — not an error
marker — under the failed key (and plain values everywhere else), so the
claim's "an error marker under the failed sub-query's key" fails for
`workouts`. -/
theorem c5_counterexample :
    exOutcome DashKey.workouts = Except.error "boom" ∧
    exOutcome DashKey.health = Except.ok "ok" ∧
    exOutcome DashKey.history = Except.ok "ok" ∧
    exOutcome DashKey.recommendation = Except.ok "ok" ∧
    exOutcome DashKey.pmc = Except.ok "ok" ∧
    exOutcome DashKey.calories = Except.ok "ok" ∧
    exOutcome DashKey.weight = Except.ok "ok" ∧
    api_dashboard exOutcome DashKey.health = DashEntry.value "ok" ∧
    api_dashboard exOutcome DashKey.history = DashEntry.value "ok" ∧
    api_dashboard exOutcome DashKey.recommendation = DashEntry.value "ok" ∧
    api_dashboard exOutcome DashKey.pmc = DashEntry.value "ok" ∧
    api_dashboard exOutcome DashKey.calories = DashEntry.value "ok" ∧
    api_dashboard exOutcome DashKey.weight = DashEntry.value "ok" ∧
    api_dashboard exOutcome DashKey.workouts = DashEntry.emptyList ∧
    api_dashboard exOutcome DashKey.workouts ≠ DashEntry.errorMarker "boom" := by
  refine ⟨rfl, rfl, rfl, rfl, rfl, rfl, rfl, rfl, rfl, rfl, rfl, rfl, rfl, rfl, ?_⟩
  simp [api_dashboard, exOutcome]

/-- C5 (amended): if exactly one sub-query raises, every other key still gets
its value and no other key gets an error marker; the failed key gets an error
marker — unless it is `workouts`, which gets an empty list instead.  In
`api_dashboard_quick` every failed key gets an error marker. -/
theorem c5_partial_failure {V : Type} (outcome : DashKey → Except String V)
    (k0 : DashKey) (e : String) (hfail : outcome k0 = Except.error e) :
    (∀ k v, outcome k = Except.ok v → api_dashboard outcome k = DashEntry.value v) ∧
    (k0 ≠ DashKey.workouts → api_dashboard outcome k0 = DashEntry.errorMarker e) ∧
    (k0 = DashKey.workouts → api_dashboard outcome k0 = DashEntry.emptyList) ∧
    (∀ (q : QuickKey → Except String V) (qk : QuickKey) (qe : String),
      q qk = Except.error qe → api_dashboard_quick q qk = DashEntry.errorMarker qe) ∧
    (∀ (q : QuickKey → Except String V) (qk : QuickKey) (v : V),
      q qk = Except.ok v → api_dashboard_quick q qk = DashEntry.value v) := by
  refine ⟨?_, ?_, ?_, ?_, ?_⟩
  · intro k v hk
    simp [api_dashboard, hk]
  · intro hk0
    simp [api_dashboard, hfail, hk0]
  · intro hk0
    subst hk0
    simp [api_dashboard, hfail]
  · intro q qk qe hq
    simp [api_dashboard_quick, hq]
  · intro q qk v hq
    simp [api_dashboard_quick, hq]

/-- C5 witness: the amended statement at a run where exactly the `pmc`
sub-query raises. -/
theorem c5_partial_failure_witness :
    (fun k => if k = DashKey.pmc then Except.error "down" else Except.ok "fine")
      DashKey.pmc = Except.error "down" ∧
    ((∀ k v,
       (fun k => if k = DashKey.pmc then Except.error "down" else Except.ok "fine") k =
         Except.ok v →
       api_dashboard
         (fun k => if k = DashKey.pmc then Except.error "down" else Except.ok "fine") k =
         DashEntry.value v) ∧
     (DashKey.pmc ≠ DashKey.workouts →
       api_dashboard
         (fun k => if k = DashKey.pmc then Except.error "down" else Except.ok "fine")
         DashKey.pmc = DashEntry.errorMarker "down") ∧
     (DashKey.pmc = DashKey.workouts →
       api_dashboard
         (fun k => if k = DashKey.pmc then Except.error "down" else Except.ok "fine")
         DashKey.pmc = DashEntry.emptyList) ∧
     (∀ (q : QuickKey → Except String String) (qk : QuickKey) (qe : String),
       q qk = Except.error qe → api_dashboard_quick q qk = DashEntry.errorMarker qe) ∧
     (∀ (q : QuickKey → Except String String) (qk : QuickKey) (v : String),
       q qk = Except.ok v → api_dashboard_quick q qk = DashEntry.value v)) :=
  ⟨rfl,
   c5_partial_failure
     (fun k => if k = DashKey.pmc then Except.error "down" else Except.ok "fine")
     DashKey.pmc "down" rfl⟩

/- ------------------------------------------------------------------ -/
/- C6                                                                 -/
/- ------------------------------------------------------------------ -/

lemma ensure_loading_cases (now : ℕ) (s : WorkoutIndexState) :
    (_ensure_workout_index_loaded now s).1 = s ∨
      (s.loading = false ∧
        (_ensure_workout_index_loaded now s).1 =
          { s with loading := true, loading_started_at := some now,
                   inflight := s.inflight + 1 }) := by
  unfold _ensure_workout_index_loaded
  split_ifs with h1 h2
  · exact Or.inl rfl
  · exact Or.inr ⟨h2, rfl⟩
  · exact Or.inl rfl

lemma indexStep_invariant (s : WorkoutIndexState)
    (h : s.inflight = if s.loading then 1 else 0) (e : IndexEvent) :
    (indexStep s e).inflight = if (indexStep s e).loading then 1 else 0 := by
  cases e with
  | ensure now =>
    have hstep : indexStep s (.ensure now) = (_ensure_workout_index_loaded now s).1 := rfl
    rcases ensure_loading_cases now s with hc | ⟨hl, hc⟩
    · rw [hstep, hc]
      exact h
    · rw [hstep, hc]
      simp only [hl] at h
      simp at h
      simp [h]
  | completeFail =>
    have hstep : indexStep s .completeFail =
        (if s.inflight = 0 then s
         else { s with loading := false, inflight := s.inflight - 1 }) := rfl
    rw [hstep]
    by_cases h0 : s.inflight = 0
    · rw [if_pos h0]
      exact h
    · rw [if_neg h0]
      by_cases hl : s.loading = true
      · simp only [hl, if_true] at h
        simp [h]
      · simp only [hl, if_false] at h
        exact absurd h h0
  | completeSuccess d now =>
    have hstep : indexStep s (.completeSuccess d now) =
        (if s.inflight = 0 then s
         else { s with data := some d, loaded_at := some now, loading := false,
                       loading_started_at := none, inflight := s.inflight - 1 }) := rfl
    rw [hstep]
    by_cases h0 : s.inflight = 0
    · rw [if_pos h0]
      exact h
    · rw [if_neg h0]
      by_cases hl : s.loading = true
      · simp only [hl, if_true] at h
        simp [h]
      · simp only [hl, if_false] at h
        exact absurd h h0

lemma foldl_indexStep_invariant (events : List IndexEvent) :
    ∀ s : WorkoutIndexState, s.inflight = (if s.loading then 1 else 0) →
      (events.foldl indexStep s).inflight =
        if (events.foldl indexStep s).loading then 1 else 0 := by
  induction events with
  | nil => intro s h; exact h
  | cons e es ih =>
    intro s h
    exact ih (indexStep s e) (indexStep_invariant s h e)

lemma ensure_of_loading {now : ℕ} {s : WorkoutIndexState} (h : s.loading = true) :
    (_ensure_workout_index_loaded now s).2.1 = false ∧
      (_ensure_workout_index_loaded now s).1 = s := by
  unfold _ensure_workout_index_loaded
  split_ifs with h1 h2
  · exact ⟨rfl, rfl⟩
  · rw [h] at h2
    cases h2
  · exact ⟨rfl, rfl⟩

/-- C6: single-flight population of the workout index.  (a) A call to
`_ensure_workout_index_loaded` that observes `loading = true` spawns no
thread and leaves the state untouched; (b) a call that spawns a thread must
have observed `loading = false`, and it transitions the state to loading;
(c) along every sequence of lock-serialized events from the initial module
state, the number of in-flight population threads equals 1 when `loading` is
set and 0 otherwise — so at most one background task is ever in flight. -/
theorem c6_single_flight :
    (∀ (now : ℕ) (s : WorkoutIndexState), s.loading = true →
      (_ensure_workout_index_loaded now s).2.1 = false ∧
        (_ensure_workout_index_loaded now s).1 = s) ∧
    (∀ (now : ℕ) (s : WorkoutIndexState),
      (_ensure_workout_index_loaded now s).2.1 = true →
      s.loading = false ∧ (_ensure_workout_index_loaded now s).1.loading = true) ∧
    (∀ events : List IndexEvent,
      (runIndex events).inflight = if (runIndex events).loading then 1 else 0) := by
  refine ⟨?_, ?_, ?_⟩
  · intro now s h
    exact ensure_of_loading h
  · intro now s h
    by_cases hl : s.loading
    · exact absurd ((ensure_of_loading hl).1 ▸ h) (by simp)
    · refine ⟨by simpa using hl, ?_⟩
      unfold _ensure_workout_index_loaded at h ⊢
      split_ifs at h ⊢ with h1 h2
      all_goals first | rfl | cases h
  · intro events
    exact foldl_indexStep_invariant events initIndexState rfl

/-- C6 witness: a state mid-load gets no second thread, and a concrete event
trace (two calls racing, then the background completion, then another call)
never exceeds one in-flight task. -/
theorem c6_single_flight_witness :
    ((⟨none, none, true, some 0, 1⟩ : WorkoutIndexState).loading = true ∧
      (_ensure_workout_index_loaded 5 ⟨none, none, true, some 0, 1⟩).2.1 = false ∧
      (_ensure_workout_index_loaded 5 ⟨none, none, true, some 0, 1⟩).1 =
        ⟨none, none, true, some 0, 1⟩) ∧
    (runIndex [.ensure 0, .ensure 1, .completeSuccess [7] 2, .ensure 3]).inflight =
      if (runIndex [.ensure 0, .ensure 1, .completeSuccess [7] 2, .ensure 3]).loading
      then 1 else 0 :=
  ⟨⟨rfl, c6_single_flight.1 5 ⟨none, none, true, some 0, 1⟩ rfl⟩,
   c6_single_flight.2.2 [.ensure 0, .ensure 1, .completeSuccess [7] 2, .ensure 3]⟩

/- ------------------------------------------------------------------ -/
/- Rounding and decay-coefficient facts                               -/
/- ------------------------------------------------------------------ -/

lemma round1_nonneg {x : ℝ} (hx : 0 ≤ x) : 0 ≤ round1 x := by
  unfold round1
  have h0 : (0 : ℤ) ≤ round (x * 10) := by
    rw [round_eq]
    exact Int.floor_nonneg.mpr (by linarith)
  exact div_nonneg (by exact_mod_cast h0) (by norm_num)

lemma round1_le (x : ℝ) : round1 x ≤ x + 1 / 20 := by
  unfold round1
  have h := round_le_add_half (x * 10)
  linarith

lemma k_of_pos {τ : ℝ} (hτ : 0 < τ) : 0 < k_of τ := by
  unfold k_of
  have h : Real.exp (-1 / τ) < 1 := by
    rw [Real.exp_lt_one_iff, neg_div, neg_lt_zero]
    positivity
  linarith

lemma k_of_lt_one (τ : ℝ) : k_of τ < 1 := by
  unfold k_of
  have := Real.exp_pos (-1 / τ)
  linarith

lemma k_of_le_inv (τ : ℝ) : k_of τ ≤ 1 / τ := by
  unfold k_of
  rw [show (-1 : ℝ) / τ = -(1 / τ) from by ring]
  have h := Real.add_one_le_exp (-(1 / τ))
  linarith

/-- `exp(-1/7) ≤ 7/8`, so `k_of 7 ≥ 1/8`: the short time constant decays much
faster than the long one. -/
lemma k_of_seven : (1 : ℝ) / 8 ≤ k_of 7 := by
  unfold k_of
  have h := Real.add_one_le_exp ((1 : ℝ) / 7)
  have hpos : (0 : ℝ) < Real.exp (1 / 7) := Real.exp_pos _
  have hinv : Real.exp (-1 / 7) = (Real.exp (1 / 7))⁻¹ := by
    rw [neg_div, Real.exp_neg]
  have h87 : (8 : ℝ) / 7 ≤ Real.exp (1 / 7) := by linarith
  have : (Real.exp (1 / 7))⁻¹ ≤ ((8 : ℝ) / 7)⁻¹ :=
    inv_le_inv_of_le (by norm_num) h87
  rw [hinv]
  norm_num at this ⊢
  linarith

/- ------------------------------------------------------------------ -/
/- Single-day evaluation of the PMC recurrence                        -/
/- ------------------------------------------------------------------ -/

lemma pmc_single_day (d : ℕ) (L : ℚ) (kc ka s : ℝ) :
    pmcPoints kc ka s (0, 0) [⟨d, L⟩] =
      [⟨d, round1 ((L : ℝ) * s), round1 ((L : ℝ) * s * kc), round1 ((L : ℝ) * s * ka),
        round1 ((L : ℝ) * s * kc - (L : ℝ) * s * ka)⟩] := by
  have h1 : (0 : ℝ) * (1 - kc) + (L : ℝ) * s * kc = (L : ℝ) * s * kc := by ring
  have h2 : (0 : ℝ) * (1 - ka) + (L : ℝ) * s * ka = (L : ℝ) * s * ka := by ring
  simp only [pmcPoints, h1, h2]

/- ------------------------------------------------------------------ -/
/- C2                                                                 -/
/- ------------------------------------------------------------------ -/

/-- C2 (counterexample): the recurrence is seeded at zero, so a single-day
series does not give `ctl = scaled load`.  With the shipped parameters
(ctl_days 60, atl_days 7, scale 1.4) and one day of load 100, the emitted ctl
is `round1(140·k_ctl) ≤ 140/60 + 1/20`, far below the scaled load 140. -/
theorem c2_counterexample :
    ¬ (∀ p ∈ calculate_pmc_series [⟨0, 100⟩] 60 7 (14 / 10),
        p.ctl = (100 : ℝ) * (14 / 10) ∧ p.atl = (100 : ℝ) * (14 / 10)) := by
  intro h
  have hs : calculate_pmc_series [⟨0, 100⟩] 60 7 (14 / 10) =
      [⟨0, round1 (((100 : ℚ) : ℝ) * (14 / 10)),
        round1 (((100 : ℚ) : ℝ) * (14 / 10) * k_of 60),
        round1 (((100 : ℚ) : ℝ) * (14 / 10) * k_of 7),
        round1 (((100 : ℚ) : ℝ) * (14 / 10) * k_of 60 -
                ((100 : ℚ) : ℝ) * (14 / 10) * k_of 7)⟩] :=
    pmc_single_day 0 100 (k_of 60) (k_of 7) (14 / 10)
  obtain ⟨hctl, -⟩ := h _ (by rw [hs]; exact List.mem_singleton.mpr rfl)
  have hcast : ((100 : ℚ) : ℝ) = (100 : ℝ) := by norm_num
  rw [hcast] at hctl
  have hk : k_of 60 ≤ 1 / 60 := k_of_le_inv 60
  have hb := round1_le ((100 : ℝ) * (14 / 10) * k_of 60)
  simp only [] at hctl
  rw [hctl] at hb
  nlinarith

/-- C2 (amended): empty input gives an empty series; a single-day input gives
one point whose pre-rounding ctl and atl are `k_ctl · scaled_load` and
`k_atl · scaled_load` respectively (the EWMA recurrence is seeded at zero, so
neither equals the scaled load except when it is 0), each emitted after
rounding to one decimal. -/
theorem c2_single_day (d : ℕ) (L : ℚ) (ctl_days atl_days scale : ℝ) :
    calculate_pmc_series [] ctl_days atl_days scale = [] ∧
    calculate_pmc_series [⟨d, L⟩] ctl_days atl_days scale =
      [⟨d, round1 ((L : ℝ) * scale), round1 ((L : ℝ) * scale * k_of ctl_days),
        round1 ((L : ℝ) * scale * k_of atl_days),
        round1 ((L : ℝ) * scale * k_of ctl_days -
                (L : ℝ) * scale * k_of atl_days)⟩] :=
  ⟨rfl, pmc_single_day d L (k_of ctl_days) (k_of atl_days) scale⟩

/- ------------------------------------------------------------------ -/
/- C9                                                                 -/
/- ------------------------------------------------------------------ -/

lemma pmcPoints_nonneg {kc ka s : ℝ} (hkc0 : 0 ≤ kc) (hkc1 : kc ≤ 1)
    (hka0 : 0 ≤ ka) (hka1 : ka ≤ 1) (hs : 0 ≤ s) :
    ∀ (series : List DailyLoad) (st : ℝ × ℝ), 0 ≤ st.1 → 0 ≤ st.2 →
      (∀ e ∈ series, 0 ≤ e.load) →
      ∀ p ∈ pmcPoints kc ka s st series, 0 ≤ p.ctl ∧ 0 ≤ p.atl := by
  intro series
  induction series with
  | nil =>
    intro st _ _ _ p hp
    simp [pmcPoints] at hp
  | cons day rest ih =>
    intro st h1 h2 hl p hp
    have hload : 0 ≤ (day.load : ℝ) * s :=
      mul_nonneg (by exact_mod_cast hl day (List.mem_cons_self _ _)) hs
    have hctl : 0 ≤ st.1 * (1 - kc) + (day.load : ℝ) * s * kc :=
      add_nonneg (mul_nonneg h1 (by linarith)) (mul_nonneg hload hkc0)
    have hatl : 0 ≤ st.2 * (1 - ka) + (day.load : ℝ) * s * ka :=
      add_nonneg (mul_nonneg h2 (by linarith)) (mul_nonneg hload hka0)
    rcases List.mem_cons.mp hp with rfl | hp'
    · exact ⟨round1_nonneg hctl, round1_nonneg hatl⟩
    · exact ih _ hctl hatl (fun e he => hl e (List.mem_cons_of_mem _ he)) p hp'

/-- C9: for any input series with non-negative loads and positive time
constants, every emitted PMCPoint has `ctl ≥ 0` and `atl ≥ 0`; tsb carries no
sign constraint — with the shipped constants a single day of load 100 already
emits a strictly negative tsb while its ctl and atl stay non-negative. -/
theorem c9_nonneg (series : List DailyLoad) (ctl_days atl_days scale : ℝ)
    (hl : ∀ e ∈ series, 0 ≤ e.load) (hc : 0 < ctl_days) (ha : 0 < atl_days)
    (hs : 0 ≤ scale) :
    (∀ p ∈ calculate_pmc_series series ctl_days atl_days scale,
       0 ≤ p.ctl ∧ 0 ≤ p.atl) ∧
    (∀ p ∈ calculate_pmc_series [⟨0, 100⟩] 42 7 (14 / 10), p.tsb < 0) := by
  constructor
  · exact pmcPoints_nonneg (le_of_lt (k_of_pos hc)) (le_of_lt (k_of_lt_one _))
      (le_of_lt (k_of_pos ha)) (le_of_lt (k_of_lt_one _)) hs series (0, 0)
      le_rfl le_rfl hl
  · intro p hp
    have hss : calculate_pmc_series [⟨0, 100⟩] 42 7 (14 / 10) =
        [⟨0, round1 (((100 : ℚ) : ℝ) * (14 / 10)),
          round1 (((100 : ℚ) : ℝ) * (14 / 10) * k_of 42),
          round1 (((100 : ℚ) : ℝ) * (14 / 10) * k_of 7),
          round1 (((100 : ℚ) : ℝ) * (14 / 10) * k_of 42 -
                  ((100 : ℚ) : ℝ) * (14 / 10) * k_of 7)⟩] :=
      pmc_single_day 0 100 (k_of 42) (k_of 7) (14 / 10)
    rw [hss] at hp
    rcases List.mem_singleton.mp hp with rfl
    have hc42 : k_of 42 ≤ 1 / 42 := k_of_le_inv 42
    have ha7 : (1 : ℝ) / 8 ≤ k_of 7 := k_of_seven
    have hb := round1_le (((100 : ℚ) : ℝ) * (14 / 10) * k_of 42 -
      ((100 : ℚ) : ℝ) * (14 / 10) * k_of 7)
    have hcast : ((100 : ℚ) : ℝ) = (100 : ℝ) := by norm_num
    rw [hcast] at hb ⊢
    simp only []
    nlinarith

/-- C9 witness: the non-negativity invariant evaluated on the one-day input
of load 100 with the shipped parameters. -/
theorem c9_nonneg_witness :
    (∀ e ∈ ([⟨0, 100⟩] : List DailyLoad), 0 ≤ e.load) ∧
    (0 : ℝ) < 42 ∧ (0 : ℝ) < 7 ∧ (0 : ℝ) ≤ 14 / 10 ∧
    ((∀ p ∈ calculate_pmc_series [⟨0, 100⟩] 42 7 (14 / 10),
        0 ≤ p.ctl ∧ 0 ≤ p.atl) ∧
     (∀ p ∈ calculate_pmc_series [⟨0, 100⟩] 42 7 (14 / 10), p.tsb < 0)) :=
  ⟨by intro e he; rcases List.mem_singleton.mp he with rfl; norm_num,
   by norm_num, by norm_num, by norm_num,
   c9_nonneg [⟨0, 100⟩] 42 7 (14 / 10)
     (by intro e he; rcases List.mem_singleton.mp he with rfl; norm_num)
     (by norm_num) (by norm_num) (by norm_num)⟩

/- ------------------------------------------------------------------ -/
/- C7                                                                 -/
/- ------------------------------------------------------------------ -/

lemma ewma_closed (k x : ℝ) (n : ℕ) : ewma k x n = x * (1 - (1 - k) ^ n) := by
  induction n with
  | zero => simp [ewma]
  | succ n ih =>
    rw [show ewma k x (n + 1) = ewma k x n * (1 - k) + x * k from rfl, ih]
    ring

lemma ewma_mono {k x : ℝ} (hk0 : 0 ≤ k) (hk1 : k ≤ 1) (hx : 0 ≤ x) :
    Monotone (ewma k x) := by
  apply monotone_nat_of_le_succ
  intro n
  have h1 := ewma_closed k x n
  have h2 := ewma_closed k x (n + 1)
  have h4 : 0 ≤ (1 - k) ^ n := pow_nonneg (by linarith) n
  have h5 : 0 ≤ x * ((1 - k) ^ n * k) := mul_nonneg hx (mul_nonneg h4 hk0)
  rw [h1, h2, pow_succ]
  nlinarith [h5]

lemma ewma_nonneg {k x : ℝ} (hk0 : 0 ≤ k) (hk1 : k ≤ 1) (hx : 0 ≤ x) (n : ℕ) :
    0 ≤ ewma k x n := by
  induction n with
  | zero => simp [ewma]
  | succ n ih =>
    rw [show ewma k x (n + 1) = ewma k x n * (1 - k) + x * k from rfl]
    exact add_nonneg (mul_nonneg ih (by linarith)) (mul_nonneg hx hk0)

lemma ewma_le {k x : ℝ} (hk1 : k ≤ 1) (hx : 0 ≤ x) (n : ℕ) : ewma k x n ≤ x := by
  rw [ewma_closed]
  have h : 0 ≤ (1 - k) ^ n := pow_nonneg (by linarith) n
  nlinarith

lemma ewma_tendsto {k : ℝ} (x : ℝ) (hk0 : 0 < k) (hk1 : k ≤ 1) :
    Filter.Tendsto (ewma k x) Filter.atTop (nhds x) := by
  have hr : Filter.Tendsto (fun n : ℕ => (1 - k) ^ n) Filter.atTop (nhds 0) :=
    tendsto_pow_atTop_nhds_zero_of_lt_one (by linarith) (by linarith)
  have h2 : Filter.Tendsto (fun n : ℕ => x * (1 - (1 - k) ^ n)) Filter.atTop
      (nhds (x * (1 - 0))) :=
    (tendsto_const_nhds.sub hr).const_mul x
  simp only [sub_zero, mul_one] at h2
  exact h2.congr (fun n => (ewma_closed k x n).symm)

lemma constSeries_succ (d0 n : ℕ) (L : ℚ) :
    constSeries d0 (n + 1) L = ⟨d0, L⟩ :: constSeries (d0 + 1) n L := by
  unfold constSeries
  rw [List.range_succ_eq_map, List.map_cons, List.map_map]
  congr 1
  apply List.map_congr_left
  intro a _
  simp only [Function.comp_apply, DailyLoad.mk.injEq]
  refine ⟨by omega, ?_⟩
  simp

lemma pmcPoints_const (kc ka s : ℝ) (L : ℚ) :
    ∀ (n d0 m : ℕ),
      pmcPoints kc ka s (ewma kc ((L : ℝ) * s) m, ewma ka ((L : ℝ) * s) m)
          (constSeries d0 n L) =
        (List.range n).map (fun i =>
          ⟨d0 + i, round1 ((L : ℝ) * s),
           round1 (ewma kc ((L : ℝ) * s) (m + i + 1)),
           round1 (ewma ka ((L : ℝ) * s) (m + i + 1)),
           round1 (ewma kc ((L : ℝ) * s) (m + i + 1) -
                   ewma ka ((L : ℝ) * s) (m + i + 1))⟩) := by
  intro n
  induction n with
  | zero =>
    intro d0 m
    simp [constSeries, pmcPoints]
  | succ n ih =>
    intro d0 m
    rw [constSeries_succ, List.range_succ_eq_map, List.map_cons, List.map_map]
    show (⟨d0, round1 ((L : ℝ) * s),
           round1 (ewma kc ((L : ℝ) * s) (m + 1)),
           round1 (ewma ka ((L : ℝ) * s) (m + 1)),
           round1 (ewma kc ((L : ℝ) * s) (m + 1) - ewma ka ((L : ℝ) * s) (m + 1))⟩ ::
         pmcPoints kc ka s (ewma kc ((L : ℝ) * s) (m + 1), ewma ka ((L : ℝ) * s) (m + 1))
           (constSeries (d0 + 1) n L)) = _
    congr 1
    rw [ih (d0 + 1) (m + 1)]
    apply List.map_congr_left
    intro a _
    simp only [Function.comp_apply, PMCPoint.mk.injEq]
    have h1 : d0 + 1 + a = d0 + (a + 1) := by omega
    have h2 : m + 1 + a + 1 = m + (a + 1) + 1 := by omega
    rw [h1, h2]
    simp

/-- C7: on a gap-free constant-load series the recurrence values carried by
`calculate_pmc_series` (whose emitted ctl/atl/tsb are exactly these values
rounded to one decimal at the presentation boundary) are monotone
non-decreasing from the zero seed, bounded above by `L · scale`, and converge
to `L · scale`, so tsb converges to 0. -/
theorem c7_ewma_convergence (L : ℚ) (ctl_days atl_days scale : ℝ)
    (hL : 0 ≤ L) (hc : 0 < ctl_days) (ha : 0 < atl_days) (hs : 0 ≤ scale) :
    (∀ n d0, calculate_pmc_series (constSeries d0 n L) ctl_days atl_days scale =
      (List.range n).map (fun i =>
        ⟨d0 + i, round1 ((L : ℝ) * scale),
         round1 (ewma (k_of ctl_days) ((L : ℝ) * scale) (i + 1)),
         round1 (ewma (k_of atl_days) ((L : ℝ) * scale) (i + 1)),
         round1 (ewma (k_of ctl_days) ((L : ℝ) * scale) (i + 1) -
                 ewma (k_of atl_days) ((L : ℝ) * scale) (i + 1))⟩)) ∧
    Monotone (ewma (k_of ctl_days) ((L : ℝ) * scale)) ∧
    Monotone (ewma (k_of atl_days) ((L : ℝ) * scale)) ∧
    (∀ n, 0 ≤ ewma (k_of ctl_days) ((L : ℝ) * scale) n ∧
          ewma (k_of ctl_days) ((L : ℝ) * scale) n ≤ (L : ℝ) * scale ∧
          0 ≤ ewma (k_of atl_days) ((L : ℝ) * scale) n ∧
          ewma (k_of atl_days) ((L : ℝ) * scale) n ≤ (L : ℝ) * scale) ∧
    Filter.Tendsto (ewma (k_of ctl_days) ((L : ℝ) * scale)) Filter.atTop
      (nhds ((L : ℝ) * scale)) ∧
    Filter.Tendsto (ewma (k_of atl_days) ((L : ℝ) * scale)) Filter.atTop
      (nhds ((L : ℝ) * scale)) ∧
    Filter.Tendsto (fun n => ewma (k_of ctl_days) ((L : ℝ) * scale) n -
        ewma (k_of atl_days) ((L : ℝ) * scale) n) Filter.atTop (nhds 0) := by
  have hx : 0 ≤ (L : ℝ) * scale :=
    mul_nonneg (by exact_mod_cast hL) hs
  have hkc0 := k_of_pos hc
  have hkc1 := k_of_lt_one ctl_days
  have hka0 := k_of_pos ha
  have hka1 := k_of_lt_one atl_days
  refine ⟨?_, ?_, ?_, ?_, ?_, ?_, ?_⟩
  · intro n d0
    have hseed : calculate_pmc_series (constSeries d0 n L) ctl_days atl_days scale =
        pmcPoints (k_of ctl_days) (k_of atl_days) scale
          (ewma (k_of ctl_days) ((L : ℝ) * scale) 0,
           ewma (k_of atl_days) ((L : ℝ) * scale) 0) (constSeries d0 n L) := rfl
    rw [hseed, pmcPoints_const (k_of ctl_days) (k_of atl_days) scale L n d0 0]
    apply List.map_congr_left
    intro a _
    have h0 : 0 + a + 1 = a + 1 := by omega
    rw [h0]
  · exact ewma_mono (le_of_lt hkc0) (le_of_lt hkc1) hx
  · exact ewma_mono (le_of_lt hka0) (le_of_lt hka1) hx
  · intro n
    exact ⟨ewma_nonneg (le_of_lt hkc0) (le_of_lt hkc1) hx n,
      ewma_le (le_of_lt hkc1) hx n,
      ewma_nonneg (le_of_lt hka0) (le_of_lt hka1) hx n,
      ewma_le (le_of_lt hka1) hx n⟩
  · exact ewma_tendsto _ hkc0 (le_of_lt hkc1)
  · exact ewma_tendsto _ hka0 (le_of_lt hka1)
  · have h := (ewma_tendsto ((L : ℝ) * scale) hkc0 (le_of_lt hkc1)).sub
      (ewma_tendsto ((L : ℝ) * scale) hka0 (le_of_lt hka1))
    simpa using h

/-- C7 witness: the convergence statement at constant load 100 with the
shipped parameters (ctl 42 days, atl 7 days, scale 1.4). -/
theorem c7_ewma_convergence_witness :
    (0 : ℚ) ≤ 100 ∧ (0 : ℝ) < 42 ∧ (0 : ℝ) < 7 ∧ (0 : ℝ) ≤ 14 / 10 ∧
    ((∀ n d0, calculate_pmc_series (constSeries d0 n 100) 42 7 (14 / 10) =
      (List.range n).map (fun i =>
        ⟨d0 + i, round1 (((100 : ℚ) : ℝ) * (14 / 10)),
         round1 (ewma (k_of 42) (((100 : ℚ) : ℝ) * (14 / 10)) (i + 1)),
         round1 (ewma (k_of 7) (((100 : ℚ) : ℝ) * (14 / 10)) (i + 1)),
         round1 (ewma (k_of 42) (((100 : ℚ) : ℝ) * (14 / 10)) (i + 1) -
                 ewma (k_of 7) (((100 : ℚ) : ℝ) * (14 / 10)) (i + 1))⟩)) ∧
     Monotone (ewma (k_of 42) (((100 : ℚ) : ℝ) * (14 / 10))) ∧
     Monotone (ewma (k_of 7) (((100 : ℚ) : ℝ) * (14 / 10))) ∧
     (∀ n, 0 ≤ ewma (k_of 42) (((100 : ℚ) : ℝ) * (14 / 10)) n ∧
           ewma (k_of 42) (((100 : ℚ) : ℝ) * (14 / 10)) n ≤ ((100 : ℚ) : ℝ) * (14 / 10) ∧
           0 ≤ ewma (k_of 7) (((100 : ℚ) : ℝ) * (14 / 10)) n ∧
           ewma (k_of 7) (((100 : ℚ) : ℝ) * (14 / 10)) n ≤ ((100 : ℚ) : ℝ) * (14 / 10)) ∧
     Filter.Tendsto (ewma (k_of 42) (((100 : ℚ) : ℝ) * (14 / 10))) Filter.atTop
       (nhds (((100 : ℚ) : ℝ) * (14 / 10))) ∧
     Filter.Tendsto (ewma (k_of 7) (((100 : ℚ) : ℝ) * (14 / 10))) Filter.atTop
       (nhds (((100 : ℚ) : ℝ) * (14 / 10))) ∧
     Filter.Tendsto (fun n => ewma (k_of 42) (((100 : ℚ) : ℝ) * (14 / 10)) n -
         ewma (k_of 7) (((100 : ℚ) : ℝ) * (14 / 10)) n) Filter.atTop (nhds 0)) :=
  ⟨by norm_num, by norm_num, by norm_num, by norm_num,
   c7_ewma_convergence 100 42 7 (14 / 10) (by norm_num) (by norm_num)
     (by norm_num) (by norm_num)⟩

/- ------------------------------------------------------------------ -/
/- Grid-search fold machinery                                         -/
/- ------------------------------------------------------------------ -/

lemma optStep_fst_le (dl : List (ℕ × ℚ)) (rp : List RefPoint)
    (st : ℝ × FLParams) (c : ℚ × ℚ × ℚ) : (optStep dl rp st c).1 ≤ st.1 := by
  unfold optStep
  split_ifs with h
  · exact le_of_lt h
  · exact le_rfl

lemma foldl_optStep_fst_le (dl : List (ℕ × ℚ)) (rp : List RefPoint)
    (l : List (ℚ × ℚ × ℚ)) :
    ∀ st : ℝ × FLParams, (l.foldl (optStep dl rp) st).1 ≤ st.1 := by
  induction l with
  | nil => intro st; exact le_rfl
  | cons c cs ih =>
    intro st
    exact le_trans (ih _) (optStep_fst_le dl rp st c)

lemma foldl_optStep_min_le (dl : List (ℕ × ℚ)) (rp : List RefPoint)
    (l : List (ℚ × ℚ × ℚ)) :
    ∀ st : ℝ × FLParams, ∀ c ∈ l, (l.foldl (optStep dl rp) st).1 ≤
      calculate_error dl rp c.1 c.2.1 c.2.2 := by
  induction l with
  | nil => intro st c hc; cases hc
  | cons c cs ih =>
    intro st c' hc'
    rcases List.mem_cons.mp hc' with rfl | h
    · refine le_trans (foldl_optStep_fst_le dl rp cs _) ?_
      unfold optStep
      split_ifs with h
      · exact le_rfl
      · exact le_of_not_lt h
    · exact ih _ c' h

lemma foldl_optStep_mem (dl : List (ℕ × ℚ)) (rp : List RefPoint)
    (l : List (ℚ × ℚ × ℚ)) :
    ∀ st : ℝ × FLParams, (l.foldl (optStep dl rp) st).2 = st.2 ∨
      ∃ c ∈ l, (l.foldl (optStep dl rp) st).2 = mkBestParams c := by
  induction l with
  | nil => intro st; exact Or.inl rfl
  | cons c cs ih =>
    intro st
    rcases ih (optStep dl rp st c) with h | ⟨c', hc', h⟩
    · by_cases hlt : calculate_error dl rp c.1 c.2.1 c.2.2 < st.1
      · right
        refine ⟨c, List.mem_cons_self _ _, ?_⟩
        rw [List.foldl_cons, h]
        unfold optStep
        rw [if_pos hlt]
      · left
        rw [List.foldl_cons, h]
        unfold optStep
        rw [if_neg hlt]
    · right
      exact ⟨c', List.mem_cons_of_mem _ hc', by rw [List.foldl_cons]; exact h⟩

lemma foldl_optStep_inv (dl : List (ℕ × ℚ)) (rp : List RefPoint)
    (q0 : FLParams) (e0 : ℝ) (l : List (ℚ × ℚ × ℚ)) :
    ∀ st : ℝ × FLParams, (st.2 = q0 → st.1 = e0) → st.1 ≤ e0 →
    (∀ c ∈ l, mkBestParams c = q0 →
      calculate_error dl rp c.1 c.2.1 c.2.2 = e0) →
    ((l.foldl (optStep dl rp) st).2 = q0 → (l.foldl (optStep dl rp) st).1 = e0) ∧
      (l.foldl (optStep dl rp) st).1 ≤ e0 := by
  induction l with
  | nil => intro st h1 h2 _; exact ⟨h1, h2⟩
  | cons c cs ih =>
    intro st h1 h2 hq
    rw [List.foldl_cons]
    apply ih
    · unfold optStep
      split_ifs with hlt
      · intro hmk
        exact hq c (List.mem_cons_self _ _) hmk
      · exact h1
    · unfold optStep
      split_ifs with hlt
      · exact le_trans (le_of_lt hlt) h2
      · exact h2
    · intro c' h' hmk
      exact hq c' (List.mem_cons_of_mem _ h') hmk

lemma optimize_unfold (dl : List (ℕ × ℚ)) (rp : List RefPoint) (p : FLParams)
    (hlen : ¬ rp.length < 2) :
    optimize_parameters dl rp (some p) =
      ((gridCandidates p).foldl (optStep dl rp)
        (calculate_error dl rp p.ctl_days p.atl_days p.load_scale_factor, p)).2 := by
  unfold optimize_parameters
  rw [if_neg hlen]
  rfl

lemma optimize_ne_of_better (dl : List (ℕ × ℚ)) (rp : List RefPoint)
    (p : FLParams) (hlen : ¬ rp.length < 2)
    (hq : ∀ c ∈ gridCandidates p, mkBestParams c = p →
      calculate_error dl rp c.1 c.2.1 c.2.2 =
        calculate_error dl rp p.ctl_days p.atl_days p.load_scale_factor)
    (w : ℚ × ℚ × ℚ) (hw : w ∈ gridCandidates p)
    (hlt : calculate_error dl rp w.1 w.2.1 w.2.2 <
      calculate_error dl rp p.ctl_days p.atl_days p.load_scale_factor) :
    optimize_parameters dl rp (some p) ≠ p := by
  rw [optimize_unfold dl rp p hlen]
  intro hcontra
  have hinv := foldl_optStep_inv dl rp p
    (calculate_error dl rp p.ctl_days p.atl_days p.load_scale_factor)
    (gridCandidates p)
    (calculate_error dl rp p.ctl_days p.atl_days p.load_scale_factor, p)
    (fun _ => rfl) le_rfl hq
  have hmin := foldl_optStep_min_le dl rp (gridCandidates p)
    (calculate_error dl rp p.ctl_days p.atl_days p.load_scale_factor, p) w hw
  have h1 := hinv.1 hcontra
  rw [h1] at hmin
  exact absurd (lt_of_le_of_lt hmin hlt) (lt_irrefl _)

lemma optimize_result_cases (dl : List (ℕ × ℚ)) (rp : List RefPoint)
    (p : FLParams) (hlen : ¬ rp.length < 2) :
    optimize_parameters dl rp (some p) = p ∨
      ∃ c ∈ gridCandidates p, optimize_parameters dl rp (some p) = mkBestParams c := by
  rw [optimize_unfold dl rp p hlen]
  exact foldl_optStep_mem dl rp (gridCandidates p) _

/- ------------------------------------------------------------------ -/
/- Grid membership and range facts                                    -/
/- ------------------------------------------------------------------ -/

lemma mem_ctlRange {p : FLParams} {c : ℚ} (h : c ∈ ctlRange p) :
    30 ≤ c ∧ c ≤ 50 := by
  unfold ctlRange at h
  have := List.of_mem_filter h
  simpa using this

lemma mem_atlRange {p : FLParams} {a : ℚ} (h : a ∈ atlRange p) :
    4 ≤ a ∧ a ≤ 10 := by
  unfold atlRange at h
  have := List.of_mem_filter h
  simpa using this

lemma mem_scaleRange {p : FLParams} {s : ℚ} (h : s ∈ scaleRange p) :
    (4 / 5 ≤ s ∧ s ≤ 9 / 5) ∧
      ∃ i : ℕ, i < 9 ∧ s = p.load_scale_factor + ((i : ℚ) - 4) * (5 / 100) := by
  unfold scaleRange at h
  constructor
  · have := List.of_mem_filter h
    simpa using this
  · have hmem := List.mem_of_mem_filter h
    rcases List.mem_map.mp hmem with ⟨i, hi, hfi⟩
    exact ⟨i, by simpa using hi, hfi.symm⟩

lemma mem_gridCandidates {p : FLParams} {c : ℚ × ℚ × ℚ}
    (h : c ∈ gridCandidates p) :
    c.1 ∈ ctlRange p ∧ c.2.1 ∈ atlRange p ∧ c.2.2 ∈ scaleRange p := by
  unfold gridCandidates at h
  rcases List.mem_flatMap.mp h with ⟨c1, hc1, h⟩
  rcases List.mem_flatMap.mp h with ⟨a1, ha1, h⟩
  rcases List.mem_map.mp h with ⟨s1, hs1, rfl⟩
  exact ⟨hc1, ha1, hs1⟩

lemma gridCandidates_mem {p : FLParams} {c1 a1 s1 : ℚ}
    (hc : c1 ∈ ctlRange p) (ha : a1 ∈ atlRange p) (hs : s1 ∈ scaleRange p) :
    (c1, a1, s1) ∈ gridCandidates p := by
  unfold gridCandidates
  exact List.mem_flatMap.mpr ⟨c1, hc,
    List.mem_flatMap.mpr ⟨a1, ha, List.mem_map.mpr ⟨s1, hs, rfl⟩⟩⟩

lemma self_mem_ctlRange {p : FLParams} (h1 : 30 ≤ p.ctl_days)
    (h2 : p.ctl_days ≤ 50) : p.ctl_days ∈ ctlRange p := by
  unfold ctlRange
  apply List.mem_filter.mpr
  constructor
  · apply List.mem_map.mpr
    exact ⟨5, by decide, by push_cast; ring⟩
  · simp only [decide_eq_true_eq]
    exact ⟨h1, h2⟩

lemma self_mem_atlRange {p : FLParams} (h1 : 4 ≤ p.atl_days)
    (h2 : p.atl_days ≤ 10) : p.atl_days ∈ atlRange p := by
  unfold atlRange
  apply List.mem_filter.mpr
  constructor
  · apply List.mem_map.mpr
    exact ⟨2, by decide, by push_cast; ring⟩
  · simp only [decide_eq_true_eq]
    exact ⟨h1, h2⟩

lemma plus_fifth_mem_scaleRange {p : FLParams} (h1 : 4 / 5 ≤ p.load_scale_factor)
    (h2 : p.load_scale_factor ≤ 8 / 5) :
    p.load_scale_factor + 1 / 5 ∈ scaleRange p := by
  unfold scaleRange
  apply List.mem_filter.mpr
  constructor
  · apply List.mem_map.mpr
    exact ⟨8, by decide, by push_cast; ring⟩
  · simp only [decide_eq_true_eq]
    constructor <;> linarith

lemma ctlRange_nil {p : FLParams} (h : p.ctl_days < 25 ∨ 55 < p.ctl_days) :
    ctlRange p = [] := by
  unfold ctlRange
  rw [List.filter_eq_nil]
  intro x hx
  rcases List.mem_map.mp hx with ⟨i, hi, rfl⟩
  have hi' : i < 11 := by simpa using hi
  have hcast : (i : ℚ) ≤ 10 := by exact_mod_cast Nat.le_of_lt_succ hi'
  have h0 : (0 : ℚ) ≤ (i : ℚ) := Nat.cast_nonneg i
  simp only [decide_eq_true_eq, not_and, not_le]
  intro hc1
  rcases h with h | h
  · linarith
  · linarith

lemma round3_div20 (z : ℤ) : round3 ((z : ℚ) / 20) = (z : ℚ) / 20 := by
  unfold round3
  have h : ((z : ℚ) / 20) * 1000 = ((z * 50 : ℤ) : ℚ) := by
    push_cast
    ring
  rw [h, round_intCast]
  push_cast
  ring

/- ------------------------------------------------------------------ -/
/- Concrete error evaluation for the calibration counterexamples      -/
/- ------------------------------------------------------------------ -/

lemma pmc_ex (c a s : ℚ) :
    (calculate_pmc_with_params exLoads c a s 0).1 =
      k_of (c : ℝ) * (100 * (s : ℝ)) := by
  show (0 : ℝ) + (1 - Real.exp (-1 / (c : ℝ))) * (((100 : ℚ) : ℝ) * (s : ℝ) - 0) = _
  unfold k_of
  push_cast
  ring

lemma error_ex (c a s : ℚ) :
    calculate_error exLoads exRefs c a s =
      (k_of (c : ℝ) * (100 * (s : ℝ)) - 1000) ^ 2 := by
  unfold calculate_error exRefs
  rw [List.foldl_cons, List.foldl_cons, List.foldl_nil]
  unfold refError
  simp only []
  rw [pmc_ex]
  ring

lemma error_ex_lt {c : ℚ} (a a' : ℚ) {s s' : ℚ} (hc : 0 < c) (hs0 : 0 ≤ s)
    (hlt : s < s') (hs2 : s' ≤ 2) :
    calculate_error exLoads exRefs c a' s' < calculate_error exLoads exRefs c a s := by
  rw [error_ex, error_ex]
  have hc' : (0 : ℝ) < (c : ℝ) := by exact_mod_cast hc
  have hk0 : 0 < k_of (c : ℝ) := k_of_pos hc'
  have hk1 : k_of (c : ℝ) < 1 := k_of_lt_one _
  have hs' : (s : ℝ) < (s' : ℝ) := by exact_mod_cast hlt
  have hs0' : (0 : ℝ) ≤ (s : ℝ) := by exact_mod_cast hs0
  have hs2' : (s' : ℝ) ≤ 2 := by exact_mod_cast hs2
  have hb : k_of (c : ℝ) * (100 * (s' : ℝ)) ≤ 200 := by nlinarith
  have ha0 : 0 ≤ k_of (c : ℝ) * (100 * (s : ℝ)) := by positivity
  have hab : k_of (c : ℝ) * (100 * (s : ℝ)) < k_of (c : ℝ) * (100 * (s' : ℝ)) := by
    nlinarith
  nlinarith

/-- If a grid candidate rounds back to exactly the current parameters, its
error is the current error: this happens only for the zero-offset scale
candidate whenever `20·scale` is an integer (then `round3` is the identity on
the whole scale grid). -/
lemma mk_eq_self_error (dl : List (ℕ × ℚ)) (rp : List RefPoint) {p : FLParams}
    (hz : ∃ z : ℤ, p.load_scale_factor = (z : ℚ) / 20) :
    ∀ c ∈ gridCandidates p, mkBestParams c = p →
      calculate_error dl rp c.1 c.2.1 c.2.2 =
        calculate_error dl rp p.ctl_days p.atl_days p.load_scale_factor := by
  rcases hz with ⟨z, hz⟩
  rintro ⟨c1, a1, s1⟩ hc hmk
  obtain ⟨-, -, hs⟩ := mem_gridCandidates hc
  obtain ⟨-, i, hi, hies⟩ := mem_scaleRange hs
  have hies' : s1 = p.load_scale_factor + ((i : ℚ) - 4) * (5 / 100) := hies
  have hs20 : s1 = ((z + (i : ℤ) - 4 : ℤ) : ℚ) / 20 := by
    rw [hies', hz]
    push_cast
    ring
  have hround : round3 s1 = s1 := by
    rw [hs20]
    exact round3_div20 _
  have hc1 : c1 = p.ctl_days := congrArg FLParams.ctl_days hmk
  have ha1 : a1 = p.atl_days := congrArg FLParams.atl_days hmk
  have hs1 : round3 s1 = p.load_scale_factor := congrArg FLParams.load_scale_factor hmk
  rw [hround] at hs1
  show calculate_error dl rp c1 a1 s1 = _
  rw [hc1, ha1, hs1]

/-- Under the witness data `exLoads`/`exRefs`, a grid search whose current
parameters sit inside all the range bounds always finds a strictly better
candidate (raising the scale moves the computed CTL toward the unreachable
reference value 1000), so the result is never the current parameters. -/
lemma optimize_moves {p : FLParams}
    (h1 : 30 ≤ p.ctl_days) (h2 : p.ctl_days ≤ 50)
    (h3 : 4 ≤ p.atl_days) (h4 : p.atl_days ≤ 10)
    (h5 : 4 / 5 ≤ p.load_scale_factor) (h6 : p.load_scale_factor ≤ 6 / 5)
    (h7 : ∃ z : ℤ, p.load_scale_factor = (z : ℚ) / 20) :
    optimize_parameters exLoads exRefs (some p) ≠ p := by
  have hlen : ¬ (exRefs.length < 2) := by decide
  apply optimize_ne_of_better exLoads exRefs p hlen (mk_eq_self_error exLoads exRefs h7)
    (p.ctl_days, p.atl_days, p.load_scale_factor + 1 / 5)
  · exact gridCandidates_mem (self_mem_ctlRange h1 h2) (self_mem_atlRange h3 h4)
      (plus_fifth_mem_scaleRange h5 (by linarith))
  · exact error_ex_lt p.atl_days p.atl_days (by linarith) (by linarith)
      (by linarith) (by linarith)

lemma optimize_out_of_range (dl : List (ℕ × ℚ)) (rp : List RefPoint)
    (p : FLParams) (h : p.ctl_days < 25 ∨ 55 < p.ctl_days) :
    optimize_parameters dl rp (some p) = p := by
  by_cases hlen : rp.length < 2
  · unfold optimize_parameters
    rw [if_pos hlen]
    rfl
  · rw [optimize_unfold dl rp p hlen]
    unfold gridCandidates
    rw [ctlRange_nil h]
    rfl

/- ------------------------------------------------------------------ -/
/- C3                                                                 -/
/- ------------------------------------------------------------------ -/

/-- C3 (counterexample): `optimize_parameters` counts reference points, not
reference points carrying a non-null value.  With two reference points of
which only one carries a value, the guard `len < 2` passes and the grid
search can change the parameters: at loads `{day0: 100}`, one reference
`{ctl: 1000}` on day 0, and current parameters (42, 7, 1.0), calibration does
NOT return the current parameters. -/
theorem c3_counterexample :
    (exRefs.filter (fun r => r.ctl.isSome || r.atl.isSome)).length = 1 ∧
    exRefs.length = 2 ∧
    optimize_parameters exLoads exRefs (some exParams) ≠ exParams :=
  ⟨by decide, by decide,
   optimize_moves (p := exParams) (by norm_num [exParams]) (by norm_num [exParams])
     (by norm_num [exParams]) (by norm_num [exParams]) (by norm_num [exParams])
     (by norm_num [exParams]) ⟨20, by norm_num [exParams]⟩⟩

/-- C3 (amended): the no-op guard counts ALL supplied reference points (the
points fetched from Influx always carry a non-null ctl or atl, so for
`run_learning_cycle` the two counts coincide): with fewer than 2 reference
points in total, `optimize_parameters` returns the current parameters
unchanged (not an error), and `run_learning_cycle` returns the stored
parameters without persisting anything, so the persisted `reference_count` is
not updated.  With ≥ 2 points of which fewer than 2 carry a value, the grid
search runs and may change the parameters. -/
theorem c3_insufficient_refs (daily_loads : List (ℕ × ℚ))
    (reference_points : List RefPoint) (p : FLParams)
    (h : reference_points.length < 2) :
    optimize_parameters daily_loads reference_points (some p) = p ∧
    run_learning_cycle p reference_points daily_loads = (p, none) := by
  constructor
  · unfold optimize_parameters
    rw [if_pos h]
    rfl
  · unfold run_learning_cycle
    rw [if_neg (by omega)]

/-- C3 witness: a single reference point is a no-op for both entry points. -/
theorem c3_insufficient_refs_witness :
    ([⟨some 0, some 30, some 40⟩] : List RefPoint).length < 2 ∧
    (optimize_parameters exLoads [⟨some 0, some 30, some 40⟩] (some exParams) =
        exParams ∧
      run_learning_cycle exParams [⟨some 0, some 30, some 40⟩] exLoads =
        (exParams, none)) :=
  ⟨by decide,
   c3_insufficient_refs exLoads [⟨some 0, some 30, some 40⟩] exParams (by decide)⟩

/- ------------------------------------------------------------------ -/
/- C4                                                                 -/
/- ------------------------------------------------------------------ -/

/-- C4 (counterexample): calibration is not idempotent over identical inputs.
The grid re-centers on the previous output, so with loads `{day0: 100}`, a
reference `{ctl: 1000}` on day 0 (plus one null reference point) and starting
parameters (42, 7, 1.0), a second run moves the parameters again:
`optimize(loads, refs, optimize(loads, refs, p)) ≠ optimize(loads, refs, p)`. -/
theorem c4_counterexample :
    optimize_parameters exLoads exRefs
        (some (optimize_parameters exLoads exRefs (some exParams))) ≠
      optimize_parameters exLoads exRefs (some exParams) := by
  have hlen : ¬ (exRefs.length < 2) := by decide
  rcases optimize_result_cases exLoads exRefs exParams hlen with h | ⟨c, hc, h⟩
  · rw [h]
    exact optimize_moves (p := exParams) (by norm_num [exParams])
      (by norm_num [exParams]) (by norm_num [exParams]) (by norm_num [exParams])
      (by norm_num [exParams]) (by norm_num [exParams]) ⟨20, by norm_num [exParams]⟩
  · obtain ⟨hc1, ha1, hs1⟩ := mem_gridCandidates hc
    obtain ⟨hcb1, hcb2⟩ := mem_ctlRange hc1
    obtain ⟨hab1, hab2⟩ := mem_atlRange ha1
    obtain ⟨⟨hsb1, hsb2⟩, i, hi, hies⟩ := mem_scaleRange hs1
    have hexp : exParams.load_scale_factor = 1 := rfl
    have hsz : c.2.2 = ((16 + (i : ℤ) : ℤ) : ℚ) / 20 := by
      rw [hies, hexp]
      push_cast
      ring
    have hround : round3 c.2.2 = c.2.2 := by
      rw [hsz]
      exact round3_div20 _
    have hmkfields : mkBestParams c = ⟨c.1, c.2.1, c.2.2⟩ := by
      unfold mkBestParams
      rw [hround]
    have hsle : c.2.2 ≤ 6 / 5 := by
      rw [hies, hexp]
      have : (i : ℚ) ≤ 8 := by exact_mod_cast Nat.le_of_lt_succ hi
      linarith
    have hsge : 4 / 5 ≤ c.2.2 := hsb1
    rw [h, hmkfields]
    exact optimize_moves (p := ⟨c.1, c.2.1, c.2.2⟩) hcb1 hcb2 hab1 hab2 hsge hsle
      ⟨16 + (i : ℤ), by rw [hsz]⟩

/-- C4 (amended): calibration is deterministic (same inputs, same output),
and the no-op case is idempotent: whenever a calibration run returns the
current parameters unchanged, running it again with identical inputs returns
them unchanged too, and `run_learning_cycle` neither changes nor persists
anything on either run.  When a run does accept new parameters, however, the
grid re-centers on them and a second identical run may move them again. -/
theorem c4_noop_idempotent (daily_loads : List (ℕ × ℚ))
    (reference_points : List RefPoint) (p : FLParams)
    (h : optimize_parameters daily_loads reference_points (some p) = p) :
    optimize_parameters daily_loads reference_points
        (some (optimize_parameters daily_loads reference_points (some p))) =
      optimize_parameters daily_loads reference_points (some p) ∧
    run_learning_cycle p reference_points daily_loads = (p, none) := by
  constructor
  · rw [h]
    exact h
  · unfold run_learning_cycle
    by_cases hlen : 2 ≤ reference_points.length
    · rw [if_pos hlen]
      simp only [h]
      norm_num
    · rw [if_neg hlen]

/-- C4 witness: the no-op idempotence at the shipped default parameters,
whose out-of-range `ctl_days = 60` makes every calibration run a no-op. -/
theorem c4_noop_idempotent_witness :
    optimize_parameters exLoads exRefs (some DEFAULT_PARAMS) = DEFAULT_PARAMS ∧
    (optimize_parameters exLoads exRefs
        (some (optimize_parameters exLoads exRefs (some DEFAULT_PARAMS))) =
      optimize_parameters exLoads exRefs (some DEFAULT_PARAMS) ∧
     run_learning_cycle DEFAULT_PARAMS exRefs exLoads = (DEFAULT_PARAMS, none)) :=
  have h : optimize_parameters exLoads exRefs (some DEFAULT_PARAMS) = DEFAULT_PARAMS :=
    optimize_out_of_range exLoads exRefs DEFAULT_PARAMS
      (Or.inr (by norm_num [DEFAULT_PARAMS]))
  ⟨h, c4_noop_idempotent exLoads exRefs DEFAULT_PARAMS h⟩

/- ------------------------------------------------------------------ -/
/- C10                                                                -/
/- ------------------------------------------------------------------ -/

/-- C10: whenever the current `ctl_days` lies outside `[25, 55]` — in
particular at the shipped default `ctl_days = 60` — the filtered ctl
candidate range is empty, so the grid search evaluates no candidate, every
calibration run returns the current parameters unchanged, and no number of
repeated runs can ever move `ctl_days` into the documented 30–50 range. -/
theorem c10_ctl_grid_empty (p : FLParams)
    (h : p.ctl_days < 25 ∨ 55 < p.ctl_days) :
    ctlRange p = [] ∧ gridCandidates p = [] ∧
    (∀ (dl : List (ℕ × ℚ)) (rp : List RefPoint),
      optimize_parameters dl rp (some p) = p) ∧
    (∀ (dl : List (ℕ × ℚ)) (rp : List RefPoint) (n : ℕ),
      (fun q => optimize_parameters dl rp (some q))^[n] p = p) ∧
    (55 : ℚ) < DEFAULT_PARAMS.ctl_days := by
  have hnil := ctlRange_nil h
  have hgrid : gridCandidates p = [] := by
    unfold gridCandidates
    rw [hnil]
    rfl
  have hopt : ∀ (dl : List (ℕ × ℚ)) (rp : List RefPoint),
      optimize_parameters dl rp (some p) = p :=
    fun dl rp => optimize_out_of_range dl rp p h
  refine ⟨hnil, hgrid, hopt, ?_, by norm_num [DEFAULT_PARAMS]⟩
  intro dl rp n
  induction n with
  | zero => rfl
  | succ n ih =>
    rw [Function.iterate_succ_apply, hopt dl rp, ih]

/-- C10 witness: the empty grid and the frozen parameters at the shipped
default `DEFAULT_PARAMS` (ctl_days 60). -/
theorem c10_ctl_grid_empty_witness :
    (DEFAULT_PARAMS.ctl_days < 25 ∨ (55 : ℚ) < DEFAULT_PARAMS.ctl_days) ∧
    (ctlRange DEFAULT_PARAMS = [] ∧ gridCandidates DEFAULT_PARAMS = [] ∧
     (∀ (dl : List (ℕ × ℚ)) (rp : List RefPoint),
       optimize_parameters dl rp (some DEFAULT_PARAMS) = DEFAULT_PARAMS) ∧
     (∀ (dl : List (ℕ × ℚ)) (rp : List RefPoint) (n : ℕ),
       (fun q => optimize_parameters dl rp (some q))^[n] DEFAULT_PARAMS =
         DEFAULT_PARAMS) ∧
     (55 : ℚ) < DEFAULT_PARAMS.ctl_days) :=
  ⟨Or.inr (by norm_num [DEFAULT_PARAMS]),
   c10_ctl_grid_empty DEFAULT_PARAMS (Or.inr (by norm_num [DEFAULT_PARAMS]))⟩

end Auroran
